import Mathlib

/-!
# Smart Expense Tracker — verification of the categorization / analytics pipeline

Shallow embedding of the decision logic of the repository:

* `advanced_categorization.py` — keyword categorizer (`advanced_categorize_expense`),
* `utils.py` — date parsing (`parse_dates.try_parse`),
* `ml.py` — monthly aggregation (pandas `resample`), linear-regression forecasting
  (`forecast_expenses`), anomaly detection (`fraud_detection`), budget
  recommendation (`personalized_budget_recommendation`) and month-over-month
  comparison (`compare_expenses`).

Currency amounts are embedded as `Rat` (the Python code computes with floats;
all quantities of interest here are exact decimal values).  The pandas general
date parser (`pd.to_datetime` without an explicit format) is external library
code and is kept as an explicit function parameter `fallback` of the pipeline;
every theorem below is quantified over it.
-/

namespace ExpenseTracker

/-! ## Keyword categorizer (`advanced_categorization.py`) -/

/-- The ordered keyword table `CATEGORY_KEYWORDS`.  Python `dict`s iterate in
insertion order, so the embedding is an ordered association list. -/
def CATEGORY_KEYWORDS : List (String × List String) :=
  [("Food", ["restaurant", "dinner", "lunch", "cafe", "meal", "snack", "food", "breakfast"]),
   ("Transport", ["uber", "taxi", "bus", "train", "ride", "metro", "travel", "commute"]),
   ("Housing", ["rent", "apartment", "housing", "mortgage", "lease", "property"]),
   ("Utilities", ["electricity", "water", "utility", "bill", "internet", "gas"]),
   ("Entertainment", ["movie", "theater", "concert", "event", "show", "entertainment"]),
   ("Healthcare", ["health", "clinic", "doctor", "hospital", "pharmacy", "medicine"]),
   ("Education", ["education", "tuition", "school", "books", "courses"]),
   ("Shopping", ["shopping", "clothes", "electronics", "store", "mall", "purchase"]),
   ("Insurance", ["insurance", "life insurance", "health insurance", "car insurance"])]

/-- The closed category set of the data model (§3 of the spec). -/
def closedCategories : List String :=
  ["Food", "Transport", "Housing", "Utilities", "Entertainment",
   "Healthcare", "Education", "Shopping", "Insurance", "Other"]

/-- Python's `needle in hay` substring test, on character lists. -/
def charsContain (hay needle : List Char) : Bool :=
  needle.isPrefixOf hay ||
    match hay with
    | [] => false
    | _ :: t => charsContain t needle

/-- Python `str.lower()` (ASCII case folding, which covers every keyword in the
table). -/
def pyLower (s : String) : List Char :=
  s.data.map Char.toLower

/-- `advanced_categorize_expense` from `advanced_categorization.py`:
empty description returns `"Other"`; otherwise the description is lower-cased
and the first category whose keyword list has a member contained in it wins;
no match falls back to `"Other"`. -/
def advanced_categorize_expense (description : String) : String :=
  if description = "" then "Other"
  else
    let lower_desc := pyLower description
    match CATEGORY_KEYWORDS.find? (fun ck => ck.2.any (fun kw => charsContain lower_desc kw.data)) with
    | some ck => ck.1
    | none => "Other"

/-- The categorizer as the spec words it (§4.1, keyword variant): lower-case
the input, return the first category in the fixed enumeration order for which
some trigger substring is contained in the description, `"Other"` when nothing
matches (the empty/blank case needs no special guard because no trigger is a
substring of a blank string). -/
def specCategorize (description : String) : String :=
  match CATEGORY_KEYWORDS.find? (fun ck => ck.2.any (fun kw => charsContain (pyLower description) kw.data)) with
  | some ck => ck.1
  | none => "Other"

/-! ## Dates (`utils.py` / pandas timestamps) -/

/-- A calendar date. -/
structure Date where
  year : Nat
  month : Nat
  day : Nat
deriving DecidableEq, Repr

/-- Gregorian leap-year rule. -/
def isLeap (y : Nat) : Bool :=
  (y % 4 == 0 && y % 100 != 0) || y % 400 == 0

/-- Length of a month. -/
def daysInMonth (y m : Nat) : Nat :=
  if m = 2 then (if isLeap y then 29 else 28)
  else if m = 4 ∨ m = 6 ∨ m = 9 ∨ m = 11 then 30
  else 31

/-- Days in months `1..m-1` of year `y`. -/
def daysBeforeMonth (y m : Nat) : Nat :=
  ((List.range (m - 1)).map (fun i => daysInMonth y (i + 1))).sum

/-- Days in all years `1..y-1` of the proleptic Gregorian calendar. -/
def daysBeforeYear (y : Nat) : Nat :=
  let n := y - 1
  365 * n + n / 4 - n / 100 + n / 400

/-- 0-based day number of a date; `0001-01-01` is day 0, which is a Monday in
the proleptic Gregorian calendar. -/
def dayNumber (d : Date) : Nat :=
  daysBeforeYear d.year + daysBeforeMonth d.year d.month + (d.day - 1)

/-- A syntactically valid civil date. -/
def validCivil (d : Date) : Bool :=
  1 ≤ d.year && 1 ≤ d.month && d.month ≤ 12 && 1 ≤ d.day && d.day ≤ daysInMonth d.year d.month

/-- First calendar day representable as a (midnight) pandas `Timestamp`
(`Timestamp.min` is `1677-09-21 00:12`, so midnight exists from `1677-09-22`). -/
def pandasMinDay : Nat := dayNumber ⟨1677, 9, 22⟩

/-- Last calendar day representable as a (midnight) pandas `Timestamp`
(`Timestamp.max` is `2262-04-11 23:47`). -/
def pandasMaxDay : Nat := dayNumber ⟨2262, 4, 11⟩

/-- A date that `pd.to_datetime` can represent: a valid civil date within the
nanosecond `Timestamp` range (outside it, `errors="coerce"` yields `NaT`). -/
def validTimestamp (d : Date) : Bool :=
  validCivil d && pandasMinDay ≤ dayNumber d && dayNumber d ≤ pandasMaxDay

/-! ## Date-string parsing (`utils.py`, `parse_dates.try_parse`) -/

/-- The whitespace characters stripped by Python `str.strip()` (ASCII part). -/
def isPySpace (c : Char) : Bool :=
  c = ' ' || c = '\t' || c = '\n' || c = '\r' || c = Char.ofNat 11 || c = Char.ofNat 12

/-- Python `str.strip()` on character lists. -/
def pyStrip (l : List Char) : List Char :=
  (((l.dropWhile isPySpace).reverse).dropWhile isPySpace).reverse

/-- Decimal value of a digit list. -/
def digitsToNat (l : List Char) : Nat :=
  l.foldl (fun acc c => 10 * acc + (c.toNat - 48)) 0

/-- Python `int(str)` after stripping: an optional sign followed by a nonempty
run of digits (digit-group underscores are not modelled; no input of interest
contains them). -/
def pyIntCore (l : List Char) : Option Int :=
  match l with
  | '+' :: rest =>
      if rest.isEmpty || !(rest.all Char.isDigit) then none else some (digitsToNat rest)
  | '-' :: rest =>
      if rest.isEmpty || !(rest.all Char.isDigit) then none else some (-(digitsToNat rest : Int))
  | _ =>
      if l.isEmpty || !(l.all Char.isDigit) then none else some (digitsToNat l)

/-- Python `int()` applied to a segment string. -/
def pyInt (l : List Char) : Option Int :=
  pyIntCore (pyStrip l)

/-- `str.split("-")` on character lists: always returns at least one (possibly
empty) segment. -/
def splitOnDash (l : List Char) : List (List Char) :=
  match l with
  | [] => [[]]
  | c :: t =>
    let r := splitOnDash t
    if c = '-' then [] :: r
    else
      match r with
      | h :: t2 => (c :: h) :: t2
      | [] => [[c]]

/-- A dash-separated all-digit segment of length `1..maxLen`, as `strptime`'s
`%d`/`%m`/`%Y` directives match it. -/
def parseSeg (l : List Char) (maxLen : Nat) : Option Nat :=
  if l.isEmpty || maxLen < l.length || !(l.all Char.isDigit) then none
  else some (digitsToNat l)

/-- Strict `pd.to_datetime(s, format="%Y-%m-%d", errors="coerce")`: three
dash-separated digit runs (year up to 4 digits, month and day up to 2), forming
a calendar date inside the `Timestamp` range; anything else coerces to `NaT`. -/
def parseYMD (l : List Char) : Option Date :=
  match splitOnDash l with
  | [ys, ms, ds] =>
    match parseSeg ys 4, parseSeg ms 2, parseSeg ds 2 with
    | some y, some m, some d =>
        let dt : Date := ⟨y, m, d⟩
        if validTimestamp dt then some dt else none
    | _, _, _ => none
  | _ => none

/-- Strict `pd.to_datetime(s, format="%d-%m-%Y", errors="coerce")`. -/
def parseDMY (l : List Char) : Option Date :=
  match splitOnDash l with
  | [ds, ms, ys] =>
    match parseSeg ds 2, parseSeg ms 2, parseSeg ys 4 with
    | some d, some m, some y =>
        let dt : Date := ⟨y, m, d⟩
        if validTimestamp dt then some dt else none
    | _, _, _ => none
  | _ => none

/-- `try_parse` from `utils.parse_dates`, for string-valued cells.  `fallback`
is the general parser `pd.to_datetime(s, errors="coerce")` (external library
behaviour, kept abstract).  Blank input is `NaT`; a 10-character string whose
first dash-separated segment is an integer is parsed strictly as `%Y-%m-%d`
when that integer exceeds 31 and as `%d-%m-%Y` otherwise; when `int(parts[0])`
raises `ValueError` the `except` branch calls the fallback, as does any
non-10-character string. -/
def try_parse (fallback : String → Option Date) (s : String) : Option Date :=
  if s.data.all isPySpace then none
  else if s.data.length = 10 then
    match pyInt ((splitOnDash s.data).headD []) with
    | some n => if 31 < n then parseYMD s.data else parseDMY s.data
    | none => fallback s
  else fallback s

/-! ## Records and temporal aggregation (pandas `resample`) -/

/-- An expense record as the pipeline sees it: the raw date cell (a string) plus
the fields the analytics functions read. -/
structure Record where
  date : String
  amount : Rat
  category : String
  description : String
deriving DecidableEq

/-- Aggregation granularity (`resample` frequencies `"W-Mon"`, `"M"`, `"Y"`). -/
inductive Granularity
  | week
  | month
  | year
deriving DecidableEq

/-- The bucket index of a date.  Consecutive indices are consecutive periods,
and the index order is the period-start order:
* `week`: `resample("W-Mon")` labels each bin by its closing Monday; day 0
  (0001-01-01) is a Monday, so the label index is `(dayNumber + 6) / 7`;
* `month`: `resample("M")` bins by calendar month, indexed `12·year + month-1`;
* `year`: `resample("Y")` bins by calendar year. -/
def periodKey : Granularity → Date → Nat
  | .week, d => (dayNumber d + 6) / 7
  | .month, d => 12 * d.year + (d.month - 1)
  | .year, d => d.year

/-- `parse_dates` applied to the record set, keeping each parseable record as a
`(bucket index, amount)` pair; rows whose date coerces to `NaT` are dropped
(`df.dropna(subset=[column])`). -/
def parsedKeyed (fallback : String → Option Date) (recs : List Record) (g : Granularity) :
    List (Nat × Rat) :=
  recs.filterMap (fun r => (try_parse fallback r.date).map (fun d => (periodKey g d, r.amount)))

/-- The bucket indices produced by `resample(freq).sum()`: every period from the
earliest to the latest observed one, gap periods included (pandas builds a
regular `DatetimeIndex` over the full span and fills empty bins with sum 0). -/
def aggKeys (l : List (Nat × Rat)) : List Nat :=
  match l with
  | [] => []
  | p :: ps =>
    let kmin := ps.foldl (fun a q => min a q.1) p.1
    let kmax := ps.foldl (fun a q => max a q.1) p.1
    List.range' kmin (kmax + 1 - kmin)

/-- `df.set_index("date").resample(freq).sum()` after `parse_dates`: one row per
period of the span, holding the sum of the amounts falling in it. -/
def aggregate (fallback : String → Option Date) (recs : List Record) (g : Granularity) :
    List (Nat × Rat) :=
  let l := parsedKeyed fallback recs g
  (aggKeys l).map (fun k => (k, ((l.filter (fun p => p.1 == k)).map Prod.snd).sum))

/-! ## Forecasting (`ml.py`, `forecast_expenses`) -/

/-- Result type of the forecaster.  `noData` is the `ValueError("No data
available for forecasting.")` raised on an empty record set; `fitFailure` is
the uncaught sklearn error raised when every date is unparseable and the
regression is fitted on an empty design matrix. -/
inductive ForecastResult
  | noData
  | fitFailure
  | ok (points : List (Nat × Rat))
deriving DecidableEq

/-- Value at index `i` of the least-squares line fitted through
`(0, ys[0]), …, (n-1, ys[n-1])` — `LinearRegression().fit(X, y)` followed by
`model.predict([[i]])`.  With a single sample the closed-form denominator is 0
and `Rat` division yields slope 0 with intercept `mean ys`, matching sklearn's
minimum-norm solution on the centered data. -/
def olsPredict (ys : List Rat) (i : Nat) : Rat :=
  let n : Rat := ys.length
  let xs : List Rat := (List.range ys.length).map (fun j => (j : Rat))
  let sx := xs.sum
  let sy := ys.sum
  let sxy := (List.zipWith (fun x y => x * y) xs ys).sum
  let sxx := (xs.map (fun x => x * x)).sum
  let slope := (n * sxy - sx * sy) / (n * sxx - sx * sx)
  let intercept := (sy - slope * sx) / n
  slope * (i : Rat) + intercept

/-- `forecast_expenses(data, periods)` from `ml.py`: guard raising on empty
input, monthly resampled totals, OLS fit over month indices `0..N-1`,
prediction at `N..N+periods-1`, future rows dated at the next calendar months
after the last observed bucket (`last_date + MonthBegin(1)` then `freq="M"`). -/
def forecast_expenses (fallback : String → Option Date) (recs : List Record) (periods : Nat) :
    ForecastResult :=
  if recs = [] then .noData
  else
    match aggregate fallback recs .month with
    | [] => .fitFailure
    | p :: ps =>
      let monthly := p :: ps
      let ys := monthly.map Prod.snd
      let lastKey := (monthly.map Prod.fst).foldl max 0
      .ok ((List.range periods).map (fun i => (lastKey + 1 + i, olsPredict ys (ys.length + i))))

/-! ## Anomaly detection (`ml.py`, `fraud_detection`) -/

/-- Arithmetic mean (`Series.mean()`); division by zero only arises on the
empty list, where the pipeline never reads the value. -/
def listMean (l : List Rat) : Rat :=
  l.sum / (l.length : Rat)

/-- Square of `Series.std()` (sample standard deviation, `ddof=1`).  `none`
models the `NaN` produced on fewer than two observations. -/
def sampleVar (l : List Rat) : Option Rat :=
  if l.length < 2 then none
  else some ((l.map (fun x => (x - listMean l) ^ 2)).sum / ((l.length : Rat) - 1))

/-- `fraud_detection(new_amount, hist)` from `ml.py`.  With fewer than 10
observations it evaluates `new_amount > mean + 2*std if std else False`:
* `std = NaN` (fewer than 2 points) is truthy in Python but the comparison
  with `NaN` is `False`;
* `std == 0.0` is falsy, so the expression returns `False`;
* otherwise the comparison `new > mean + 2·√var` is taken, encoded without
  square roots as `new > mean ∧ (new − mean)² > 4·var`.
With 10 or more observations the code delegates to sklearn's
`IsolationForest`, an external model kept abstract as `isoOutlier`. -/
def fraud_detection (isoOutlier : Rat → List Rat → Bool) (new_amount : Rat) (hist : List Rat) :
    Bool :=
  if hist.length < 10 then
    match sampleVar hist with
    | none => false
    | some v =>
        if v = 0 then false
        else decide (listMean hist < new_amount) && decide (4 * v < (new_amount - listMean hist) ^ 2)
  else isoOutlier new_amount hist

/-! ## Budget recommendation (`ml.py`, `personalized_budget_recommendation`) -/

/-- The monthly totals `resample("M").sum()` produces for the records of one
category (the per-group resample of `data.groupby("category").resample("M")`,
zero-filled over the group's own span). -/
def catMonthlyTotals (fallback : String → Option Date) (recs : List Record) (c : String) :
    List Rat :=
  (aggregate fallback (recs.filter (fun r => (try_parse fallback r.date).isSome && r.category == c)) .month).map Prod.snd

/-- `personalized_budget_recommendation(data)` from `ml.py`: empty input yields
`{}`; otherwise dates are parsed (dropping unparseable rows), records are
grouped by category, resampled monthly per group, and each category maps to
0.9 times the mean of its monthly totals.  The Python dict is embedded as an
association list (pandas sorts group keys; key order is irrelevant to lookup). -/
def personalized_budget_recommendation (fallback : String → Option Date) (recs : List Record) :
    List (String × Rat) :=
  if recs = [] then []
  else
    let parsed := recs.filter (fun r => (try_parse fallback r.date).isSome)
    let cats := (parsed.map Record.category).dedup
    cats.map (fun c =>
      let ys := catMonthlyTotals fallback recs c
      (c, ys.sum / (ys.length : Rat) * (9 / 10)))

/-! ## Month-over-month comparison (`ml.py`, `compare_expenses`) -/

/-- The four outcomes of `compare_expenses`:
* `noData` — `"No data available for comparison."` (empty input);
* `notEnough` — `"Not enough data for comparison."` (fewer than 2 monthly rows);
* `zeroPrevious` — `"No expenses in the previous month to compare."`;
* `report change favorable` — the percentage-change message; `favorable` is
  `change < 0` (the `"Great job! Your expenses decreased."` branch). -/
inductive CompareResult
  | noData
  | notEnough
  | zeroPrevious
  | report (change : Rat) (favorable : Bool)
deriving DecidableEq

/-- Both `noData` and `notEnough` are the spec's `InsufficientData` outcome. -/
def CompareResult.isInsufficientData : CompareResult → Bool
  | .noData => true
  | .notEnough => true
  | _ => false

/-- The monthly totals of the whole record set. -/
def monthlyTotals (fallback : String → Option Date) (recs : List Record) : List Rat :=
  (aggregate fallback recs .month).map Prod.snd

/-- `monthly.iloc[-1]["amount"]`. -/
def curTotal (fallback : String → Option Date) (recs : List Record) : Rat :=
  (monthlyTotals fallback recs).getD ((monthlyTotals fallback recs).length - 1) 0

/-- `monthly.iloc[-2]["amount"]`. -/
def prevTotal (fallback : String → Option Date) (recs : List Record) : Rat :=
  (monthlyTotals fallback recs).getD ((monthlyTotals fallback recs).length - 2) 0

/-- `((current - previous) / previous) * 100`. -/
def pctChange (fallback : String → Option Date) (recs : List Record) : Rat :=
  (curTotal fallback recs - prevTotal fallback recs) / prevTotal fallback recs * 100

/-- `compare_expenses(data)` from `ml.py`. -/
def compare_expenses (fallback : String → Option Date) (recs : List Record) : CompareResult :=
  if recs = [] then .noData
  else if (aggregate fallback recs .month).length < 2 then .notEnough
  else if prevTotal fallback recs = 0 then .zeroPrevious
  else .report (pctChange fallback recs) (decide (pctChange fallback recs < 0))

/-! ## Helper lemmas -/

theorem keys_in_closed : ∀ x ∈ CATEGORY_KEYWORDS.map Prod.fst, x ∈ closedCategories := by
  decide

/-- A list whose members are all equal to `c` sums to `c` times its length. -/
theorem sum_of_all_eq (l : List Rat) (c : Rat) (h : ∀ x ∈ l, x = c) :
    l.sum = c * l.length := by
  induction l with
  | nil => simp
  | cons a t ih =>
    have ha : a = c := h a (List.mem_cons_self a t)
    have ht : t.sum = c * t.length := ih (fun x hx => h x (List.mem_cons_of_mem a hx))
    simp only [List.sum_cons, ht, ha, List.length_cons]
    push_cast
    ring

/-! ## C1, C4, C6, C10 -/

/-- C1: for every description string the keyword categorizer agrees with the
spec's first-match rule (lower-case the input; first category in the fixed
enumeration order with a registered trigger substring; `Other` for an
empty/blank description or when nothing matches), and its result is always a
member of the closed category set. -/
theorem categorize_first_match_and_closed (s : String) :
    advanced_categorize_expense s = specCategorize s ∧
      advanced_categorize_expense s ∈ closedCategories := by
  have heq : advanced_categorize_expense s = specCategorize s := by
    by_cases h : s = ""
    · subst h; decide
    · simp only [advanced_categorize_expense, specCategorize, if_neg h]
  refine ⟨heq, heq ▸ ?_⟩
  unfold specCategorize
  cases hf : CATEGORY_KEYWORDS.find? (fun ck => ck.2.any (fun kw => charsContain (pyLower s) kw.data)) with
  | none => decide
  | some ck =>
    exact keys_in_closed ck.1 (List.mem_map_of_mem Prod.fst (List.mem_of_find?_eq_some hf))

/-- C4: for every periods-ahead `n ≥ 1`, forecasting on an empty record set
yields the typed no-data result (the guarded `ValueError`), not a crash deeper
in the pipeline. -/
theorem forecast_empty_insufficient (fallback : String → Option Date) (n : Nat) (h : 1 ≤ n) :
    forecast_expenses fallback [] n = ForecastResult.noData := by
  simp [forecast_expenses]

/-- Witness for C4 at `n = 1`. -/
theorem forecast_empty_insufficient_witness :
    1 ≤ 1 ∧ forecast_expenses (fun _ => none) [] 1 = ForecastResult.noData :=
  ⟨le_refl 1, forecast_empty_insufficient (fun _ => none) 1 (le_refl 1)⟩

/-- C6: with fewer than 10 observations that are all identical (sample standard
deviation zero or undefined), no amount is flagged as anomalous. -/
theorem fraud_zero_variance_never_flags (isoOutlier : Rat → List Rat → Bool) (x : Rat)
    (hist : List Rat) (hlen : hist.length < 10)
    (hconst : ∀ a ∈ hist, ∀ b ∈ hist, a = b) :
    fraud_detection isoOutlier x hist = false := by
  unfold fraud_detection
  rw [if_pos hlen]
  cases hv : sampleVar hist with
  | none => rfl
  | some v =>
    have hlen2 : 2 ≤ hist.length := by
      by_contra hlt
      simp [sampleVar, Nat.lt_of_not_le hlt] at hv
    obtain ⟨a, t, rfl⟩ : ∃ a t, hist = a :: t := by
      cases hist with
      | nil => simp at hlen2
      | cons a t => exact ⟨a, t, rfl⟩
    have hall : ∀ y ∈ a :: t, y = a :=
      fun y hy => hconst y hy a (List.mem_cons_self a t)
    have hn : ((a :: t).length : Rat) ≠ 0 := by
      have : (0 : Nat) < (a :: t).length := List.length_pos.mpr (by simp)
      exact_mod_cast Nat.pos_iff_ne_zero.mp this
    have hmean : listMean (a :: t) = a := by
      unfold listMean
      rw [sum_of_all_eq _ a hall, mul_div_assoc, div_self hn, mul_one]
    have hzero : ((a :: t).map (fun y => (y - listMean (a :: t)) ^ 2)).sum = 0 := by
      apply List.sum_eq_zero
      intro y hy
      obtain ⟨z, hz, rfl⟩ := List.mem_map.mp hy
      rw [hall z hz, hmean, sub_self]
      ring
    have hv0 : v = 0 := by
      unfold sampleVar at hv
      rw [if_neg (by omega)] at hv
      rw [hzero, zero_div] at hv
      exact (Option.some_inj.mp hv).symm
    simp [hv0]

unseal Rat.add Rat.mul Rat.sub Rat.inv in
/-- Witness for C6: `is_anomalous(1000, [50,50,50,50,50])` is `false`. -/
theorem fraud_zero_variance_witness :
    ([(50 : Rat), 50, 50, 50, 50].length < 10 ∧ ∀ a ∈ [(50 : Rat), 50, 50, 50, 50], ∀ b ∈ [(50 : Rat), 50, 50, 50, 50], a = b) ∧
      fraud_detection (fun _ _ => false) 1000 [50, 50, 50, 50, 50] = false :=
  ⟨⟨by decide, by decide⟩,
    fraud_zero_variance_never_flags (fun _ _ => false) 1000 [50, 50, 50, 50, 50]
      (by decide) (by decide)⟩

/-- C10: with fewer than 2 observations (including an empty history) the sample
standard deviation is undefined (`NaN`), and no amount is ever flagged. -/
theorem fraud_short_history_never_flags (isoOutlier : Rat → List Rat → Bool) (x : Rat)
    (hist : List Rat) (hlen : hist.length < 2) :
    fraud_detection isoOutlier x hist = false := by
  unfold fraud_detection
  rw [if_pos (by omega)]
  rw [show sampleVar hist = none from by simp [sampleVar, hlen]]

/-- Witness for C10 on the empty history. -/
theorem fraud_short_history_witness :
    ([] : List Rat).length < 2 ∧ fraud_detection (fun _ _ => false) 1000000 [] = false :=
  ⟨by decide, fraud_short_history_never_flags (fun _ _ => false) 1000000 [] (by decide)⟩

/-! ## Aggregation lemmas -/

/-- Splitting a sum of second components along a Boolean predicate. -/
theorem sum_filter_split (l : List (Nat × Rat)) (p : Nat × Rat → Bool) :
    ((l.filter p).map Prod.snd).sum + ((l.filter (fun x => !p x)).map Prod.snd).sum
      = (l.map Prod.snd).sum := by
  induction l with
  | nil => simp
  | cons a t ih =>
    cases h : p a
    · simp [List.filter_cons, h]
      linarith [ih]
    · simp [List.filter_cons, h]
      linarith [ih]

/-- Removing the `k`-bucket does not change any other bucket. -/
theorem filter_key_of_ne (l : List (Nat × Rat)) (k k' : Nat) (h : k' ≠ k) :
    (l.filter (fun p => !(p.1 == k))).filter (fun p => p.1 == k')
      = l.filter (fun p => p.1 == k') := by
  rw [List.filter_filter]
  apply List.filter_congr
  intro a _
  by_cases ha : a.1 = k'
  · simp [ha, h]
  · simp [ha]

/-- Summing the per-bucket sums over a duplicate-free list of keys covering
every key of `l` recovers the total sum. -/
theorem sum_over_keys (ks : List Nat) (l : List (Nat × Rat)) (hnd : ks.Nodup)
    (hcov : ∀ p ∈ l, p.1 ∈ ks) :
    (ks.map (fun k => ((l.filter (fun p => p.1 == k)).map Prod.snd).sum)).sum
      = (l.map Prod.snd).sum := by
  induction ks generalizing l with
  | nil =>
    cases l with
    | nil => simp
    | cons a t => exact absurd (hcov a (List.mem_cons_self a t)) (List.not_mem_nil _)
  | cons k ks ih =>
    rw [List.map_cons, List.sum_cons]
    have hnd' := List.nodup_cons.mp hnd
    have hmap : ks.map (fun k' => ((l.filter (fun p => p.1 == k')).map Prod.snd).sum)
        = ks.map (fun k' =>
            (((l.filter (fun p => !(p.1 == k))).filter (fun p => p.1 == k')).map Prod.snd).sum) := by
      apply List.map_congr_left
      intro k' hk'
      rw [filter_key_of_ne l k k' (fun he => hnd'.1 (he ▸ hk'))]
    rw [hmap, ih (l.filter (fun p => !(p.1 == k))) hnd'.2 ?_]
    · exact sum_filter_split l (fun p => p.1 == k)
    · intro p hp
      obtain ⟨hpl, hpk⟩ := List.mem_filter.mp hp
      have : p.1 ≠ k := by
        revert hpk
        by_cases h : p.1 = k <;> simp [h]
      cases List.mem_cons.mp (hcov p hpl) with
      | inl he => exact absurd he this
      | inr hm => exact hm

/-- A left fold of `min` is below its initial value and every list element. -/
theorem foldl_min_le (ps : List (Nat × Rat)) (a : Nat) :
    ps.foldl (fun x q => min x q.1) a ≤ a ∧ ∀ p ∈ ps, ps.foldl (fun x q => min x q.1) a ≤ p.1 := by
  induction ps generalizing a with
  | nil => simp
  | cons q t ih =>
    refine ⟨le_trans (ih (min a q.1)).1 (min_le_left _ _), ?_⟩
    intro p hp
    cases List.mem_cons.mp hp with
    | inl he =>
      subst he
      exact le_trans (ih (min a p.1)).1 (min_le_right _ _)
    | inr hm => exact (ih (min a q.1)).2 p hm

/-- A left fold of `max` is above its initial value and every list element. -/
theorem le_foldl_max (ps : List (Nat × Rat)) (a : Nat) :
    a ≤ ps.foldl (fun x q => max x q.1) a ∧ ∀ p ∈ ps, p.1 ≤ ps.foldl (fun x q => max x q.1) a := by
  induction ps generalizing a with
  | nil => simp
  | cons q t ih =>
    refine ⟨le_trans (le_max_left _ _) (ih (max a q.1)).1, ?_⟩
    intro p hp
    cases List.mem_cons.mp hp with
    | inl he =>
      subst he
      exact le_trans (le_max_right _ _) (ih (max a p.1)).1
    | inr hm => exact (ih (max a q.1)).2 p hm

/-- Every key occurring in `l` lies in the span `resample` builds over `l`. -/
theorem mem_aggKeys_of_mem (l : List (Nat × Rat)) (p : Nat × Rat) (hp : p ∈ l) :
    p.1 ∈ aggKeys l := by
  cases l with
  | nil => cases hp
  | cons p0 ps =>
    simp only [aggKeys]
    rw [List.mem_range'_1]
    have hmin : ps.foldl (fun x q => min x q.1) p0.1 ≤ p.1 := by
      cases List.mem_cons.mp hp with
      | inl he => exact he ▸ (foldl_min_le ps p0.1).1
      | inr hm => exact (foldl_min_le ps p0.1).2 p hm
    have hmax : p.1 ≤ ps.foldl (fun x q => max x q.1) p0.1 := by
      cases List.mem_cons.mp hp with
      | inl he => exact he ▸ (le_foldl_max ps p0.1).1
      | inr hm => exact (le_foldl_max ps p0.1).2 p hm
    omega

/-- The span of bucket keys is duplicate-free. -/
theorem aggKeys_nodup (l : List (Nat × Rat)) : (aggKeys l).Nodup := by
  cases l with
  | nil => exact List.nodup_nil
  | cons p ps => exact List.nodup_range' _ _

/-- The span of bucket keys is strictly sorted. -/
theorem aggKeys_sorted (l : List (Nat × Rat)) : List.Sorted (· < ·) (aggKeys l) := by
  cases l with
  | nil => exact List.sorted_nil
  | cons p ps => exact List.pairwise_lt_range' _ _

/-- The keys of the aggregate are exactly the span keys. -/
theorem aggregate_keys (fallback : String → Option Date) (recs : List Record) (g : Granularity) :
    (aggregate fallback recs g).map Prod.fst = aggKeys (parsedKeyed fallback recs g) := by
  unfold aggregate
  rw [List.map_map]
  exact List.map_id _

/-- Membership in `parsedKeyed` unfolded to the underlying record. -/
theorem mem_parsedKeyed (fallback : String → Option Date) (recs : List Record) (g : Granularity)
    (q : Nat × Rat) (hq : q ∈ parsedKeyed fallback recs g) :
    ∃ r ∈ recs, ∃ d, try_parse fallback r.date = some d ∧ q.1 = periodKey g d := by
  obtain ⟨r, hr, hmap⟩ := List.mem_filterMap.mp hq
  cases hd : try_parse fallback r.date with
  | none => rw [hd] at hmap; cases hmap
  | some d =>
    rw [hd] at hmap
    refine ⟨r, hr, d, hd, ?_⟩
    cases hmap
    rfl

/-! ## C2: aggregation preserves the total of parseable records -/

/-- The amounts of the keyed parseable pairs are the amounts of the parseable
records. -/
theorem parsed_amounts_sum (fallback : String → Option Date) (recs : List Record)
    (g : Granularity) :
    ((parsedKeyed fallback recs g).map Prod.snd).sum
      = ((recs.filter (fun r => (try_parse fallback r.date).isSome)).map Record.amount).sum := by
  unfold parsedKeyed
  induction recs with
  | nil => rfl
  | cons r t ih =>
    cases hd : try_parse fallback r.date with
    | none => simp [List.filterMap_cons, List.filter_cons, hd, ih]
    | some d => simp [List.filterMap_cons, List.filter_cons, hd, ih]

/-- C2: for every non-empty record set and granularity, the sum of the
`total_amount` values of the aggregate equals the sum of `amount` over exactly
the records whose date parses; unparseable-date records are the only excluded
ones. -/
theorem aggregate_preserves_total (fallback : String → Option Date) (recs : List Record)
    (g : Granularity) (hne : recs ≠ []) :
    ((aggregate fallback recs g).map Prod.snd).sum
      = ((recs.filter (fun r => (try_parse fallback r.date).isSome)).map Record.amount).sum := by
  have h1 : ((aggregate fallback recs g).map Prod.snd).sum
      = ((parsedKeyed fallback recs g).map Prod.snd).sum := by
    unfold aggregate
    rw [List.map_map]
    exact sum_over_keys _ _ (aggKeys_nodup _) (fun p hp => mem_aggKeys_of_mem _ p hp)
  rw [h1]
  exact parsed_amounts_sum fallback recs g

unseal Rat.add Rat.mul Rat.sub Rat.inv in
/-- Witness for C2 on a two-record set with one unparseable date. -/
theorem aggregate_preserves_total_witness :
    ([⟨"15-01-2021", 100, "Food", ""⟩, ⟨"99-99-9999", 55, "Food", ""⟩] : List Record) ≠ [] ∧
      ((aggregate (fun _ => none) [⟨"15-01-2021", 100, "Food", ""⟩, ⟨"99-99-9999", 55, "Food", ""⟩] Granularity.month).map Prod.snd).sum
        = ((([⟨"15-01-2021", 100, "Food", ""⟩, ⟨"99-99-9999", 55, "Food", ""⟩] : List Record).filter
            (fun r => (try_parse (fun _ => none) r.date).isSome)).map Record.amount).sum :=
  ⟨by decide,
    aggregate_preserves_total (fun _ => none)
      [⟨"15-01-2021", 100, "Food", ""⟩, ⟨"99-99-9999", 55, "Food", ""⟩] Granularity.month
      (by decide)⟩

/-! ## C3: sortedness, no duplicates — but `resample` zero-fills gap periods -/

unseal Rat.add Rat.mul Rat.sub Rat.inv in
/-- Counterexample to C3 as stated: with records on 01-01-2021 and 01-03-2021
only, the monthly aggregate contains the bucket of February 2021 (key
`12·2021 + 1 = 24253`) with total 0, a period in which no record falls —
pandas `resample` zero-fills the gap months of the span. -/
theorem aggregate_zero_fill_counterexample :
    (24253, (0 : Rat)) ∈ aggregate (fun _ => none)
        [⟨"01-01-2021", 5, "Food", ""⟩, ⟨"01-03-2021", 7, "Food", ""⟩] Granularity.month
    ∧ ∀ r ∈ ([⟨"01-01-2021", 5, "Food", ""⟩, ⟨"01-03-2021", 7, "Food", ""⟩] : List Record),
        ∀ d, try_parse (fun _ => none) r.date = some d → periodKey Granularity.month d ≠ 24253 := by
  constructor
  · decide
  · decide

/-- C3 (amended): the aggregate's periods are sorted ascending with no
duplicates and cover every bucketed record; but the output covers the whole
span from the earliest to the latest parseable record, and a spanned period in
which no record falls appears with total 0 instead of being omitted. -/
theorem aggregate_sorted_nodup_span (fallback : String → Option Date) (recs : List Record)
    (g : Granularity) :
    List.Sorted (· < ·) ((aggregate fallback recs g).map Prod.fst)
    ∧ ((aggregate fallback recs g).map Prod.fst).Nodup
    ∧ (∀ r ∈ recs, ∀ d, try_parse fallback r.date = some d →
        periodKey g d ∈ (aggregate fallback recs g).map Prod.fst)
    ∧ (∀ p ∈ aggregate fallback recs g,
        (∃ r ∈ recs, ∃ d, try_parse fallback r.date = some d ∧ periodKey g d = p.1) ∨ p.2 = 0) := by
  refine ⟨?_, ?_, ?_, ?_⟩
  · rw [aggregate_keys]; exact aggKeys_sorted _
  · rw [aggregate_keys]; exact aggKeys_nodup _
  · intro r hr d hd
    rw [aggregate_keys]
    exact mem_aggKeys_of_mem _ (periodKey g d, r.amount)
      (List.mem_filterMap.mpr ⟨r, hr, by rw [hd]; rfl⟩)
  · intro p hp
    by_cases hex : ∃ r ∈ recs, ∃ d, try_parse fallback r.date = some d ∧ periodKey g d = p.1
    · exact Or.inl hex
    · refine Or.inr ?_
      obtain ⟨k, _, rfl⟩ := List.mem_map.mp hp
      have hfil : (parsedKeyed fallback recs g).filter (fun q => q.1 == k) = [] := by
        rw [List.filter_eq_nil_iff]
        intro q hq
        obtain ⟨r, hr, d, hd, hk⟩ := mem_parsedKeyed fallback recs g q hq
        intro hbeq
        exact hex ⟨r, hr, d, hd, by
          have : q.1 = k := by simpa using hbeq
          omega⟩
      simp [hfil]

unseal Rat.add Rat.mul Rat.sub Rat.inv in
/-- Witness for C3 (amended) on a concrete record set. -/
theorem aggregate_sorted_nodup_span_witness :
    List.Sorted (· < ·) ((aggregate (fun _ => none)
        [⟨"01-01-2021", 5, "Food", ""⟩, ⟨"01-03-2021", 7, "Food", ""⟩] Granularity.month).map Prod.fst)
    ∧ (24252 : Nat) ∈ ((aggregate (fun _ => none)
        [⟨"01-01-2021", 5, "Food", ""⟩, ⟨"01-03-2021", 7, "Food", ""⟩] Granularity.month).map Prod.fst) := by
  obtain ⟨hs, -, hcov, -⟩ := aggregate_sorted_nodup_span (fun _ => none)
    [⟨"01-01-2021", 5, "Food", ""⟩, ⟨"01-03-2021", 7, "Food", ""⟩] Granularity.month
  refine ⟨hs, ?_⟩
  have := hcov ⟨"01-01-2021", 5, "Food", ""⟩ (by decide) ⟨2021, 1, 1⟩ (by decide)
  simpa using this

/-! ## C5: linear forecasting -/

unseal Rat.add Rat.mul Rat.sub Rat.inv in
/-- The least-squares line through `(0,100), (1,200), (2,300)` evaluates to 400
at index 3. -/
theorem ols_linear_100_200_300 : olsPredict [100, 200, 300] 3 = 400 := by decide

/-- C5: whenever the monthly aggregate is the strictly linear series
`[100, 200, 300]` (in three consecutive months starting at bucket `k`),
`forecast(records, 1)` predicts 400 for the next calendar month `k + 3`. -/
theorem forecast_linear_series (fallback : String → Option Date) (recs : List Record) (k : Nat)
    (h : aggregate fallback recs Granularity.month = [(k, 100), (k + 1, 200), (k + 2, 300)]) :
    forecast_expenses fallback recs 1 = ForecastResult.ok [(k + 3, 400)] := by
  have hne : recs ≠ [] := by
    intro he
    subst he
    simp [aggregate, parsedKeyed, aggKeys] at h
  unfold forecast_expenses
  rw [if_neg hne, h]
  have hmax : List.foldl max 0 [k, k + 1, k + 2] = k + 2 := by
    simp only [List.foldl]
    omega
  simp only [List.map_cons, List.map_nil, hmax, List.range, List.range.loop, List.length_cons,
    List.length_nil]
  rw [show (0 + 1 + 1 + 1 : Nat) + 0 = 3 from rfl, ols_linear_100_200_300]

unseal Rat.add Rat.mul Rat.sub Rat.inv in
/-- Witness for C5: three records with monthly totals 100, 200, 300 in
January–March 2021 (month buckets 24252–24254) forecast 400 for April 2021. -/
theorem forecast_linear_series_witness :
    aggregate (fun _ => none)
        [⟨"15-01-2021", 100, "Food", ""⟩, ⟨"15-02-2021", 200, "Food", ""⟩,
          ⟨"15-03-2021", 300, "Food", ""⟩] Granularity.month
      = [(24252, 100), (24252 + 1, 200), (24252 + 2, 300)]
    ∧ forecast_expenses (fun _ => none)
        [⟨"15-01-2021", 100, "Food", ""⟩, ⟨"15-02-2021", 200, "Food", ""⟩,
          ⟨"15-03-2021", 300, "Food", ""⟩] 1
      = ForecastResult.ok [(24252 + 3, 400)] :=
  ⟨by decide,
    forecast_linear_series (fun _ => none)
      [⟨"15-01-2021", 100, "Food", ""⟩, ⟨"15-02-2021", 200, "Food", ""⟩,
        ⟨"15-03-2021", 300, "Food", ""⟩] 24252 (by decide)⟩

/-! ## C7: month-over-month comparison -/

/-- C7: the comparison yields an insufficient-data message exactly when fewer
than 2 monthly buckets exist, the division-undefined message exactly when at
least 2 buckets exist and the previous month's total is 0, and otherwise the
percentage change between the two most recent monthly totals, favorable
exactly for a decrease. -/
theorem compare_expenses_cases (fallback : String → Option Date) (recs : List Record) :
    ((compare_expenses fallback recs).isInsufficientData = true
        ↔ (aggregate fallback recs Granularity.month).length < 2)
    ∧ (compare_expenses fallback recs = CompareResult.zeroPrevious
        ↔ 2 ≤ (aggregate fallback recs Granularity.month).length
          ∧ prevTotal fallback recs = 0)
    ∧ (2 ≤ (aggregate fallback recs Granularity.month).length →
        prevTotal fallback recs ≠ 0 →
        compare_expenses fallback recs
          = CompareResult.report (pctChange fallback recs)
              (decide (pctChange fallback recs < 0))) := by
  unfold compare_expenses
  by_cases hrecs : recs = []
  · subst hrecs
    have hagg : aggregate fallback [] Granularity.month = [] := rfl
    simp [hagg, CompareResult.isInsufficientData]
  · rw [if_neg hrecs]
    by_cases hlen : (aggregate fallback recs Granularity.month).length < 2
    · rw [if_pos hlen]
      refine ⟨by simp [CompareResult.isInsufficientData, hlen], by simp [hlen], ?_⟩
      intro h2
      omega
    · rw [if_neg hlen]
      by_cases hprev : prevTotal fallback recs = 0
      · rw [if_pos hprev]
        exact ⟨by simp [CompareResult.isInsufficientData]; omega,
          by simp [hprev]; omega,
          fun _ hne => absurd hprev hne⟩
      · rw [if_neg hprev]
        exact ⟨by simp [CompareResult.isInsufficientData]; omega,
          by simp [hprev],
          fun _ _ => rfl⟩

unseal Rat.add Rat.mul Rat.sub Rat.inv in
/-- Witness for C7: monthly totals `[200, 100]` report a −50% change with the
favorable (decrease) message. -/
theorem compare_expenses_witness :
    compare_expenses (fun _ => none)
        [⟨"15-01-2021", 200, "Food", ""⟩, ⟨"15-02-2021", 100, "Food", ""⟩]
      = CompareResult.report (-50) true := by
  have h := (compare_expenses_cases (fun _ => none)
    [⟨"15-01-2021", 200, "Food", ""⟩, ⟨"15-02-2021", 100, "Food", ""⟩]).2.2
    (by decide) (by decide)
  rw [h]
  decide

/-! ## C8: budget recommendation -/

/-- Looking up a key in an association list generated by a function. -/
theorem lookup_map_self (g : String → Rat) (ks : List String) (c : String) :
    (ks.map (fun k => (k, g k))).lookup c = if c ∈ ks then some (g c) else none := by
  induction ks with
  | nil => simp [List.lookup]
  | cons k t ih =>
    by_cases h : c = k
    · subst h
      simp [List.lookup]
    · have hb : (c == k) = false := by simp [h]
      simp [List.lookup, hb, h, ih]

/-- C8: a category with at least one parseable-dated record is mapped to 0.9
times the mean of its monthly totals; a category with no monthly data has no
entry at all. -/
theorem budget_recommendation_mean (fallback : String → Option Date) (recs : List Record)
    (c : String) :
    ((∃ r ∈ recs, (try_parse fallback r.date).isSome = true ∧ r.category = c) →
      (personalized_budget_recommendation fallback recs).lookup c
        = some ((catMonthlyTotals fallback recs c).sum
            / ((catMonthlyTotals fallback recs c).length : Rat) * (9 / 10)))
    ∧ ((¬ ∃ r ∈ recs, (try_parse fallback r.date).isSome = true ∧ r.category = c) →
      (personalized_budget_recommendation fallback recs).lookup c = none) := by
  by_cases hrecs : recs = []
  · subst hrecs
    exact ⟨fun ⟨r, hr, _⟩ => absurd hr (List.not_mem_nil r), fun _ => rfl⟩
  · have hmem : c ∈ ((recs.filter (fun r => (try_parse fallback r.date).isSome)).map Record.category).dedup
        ↔ ∃ r ∈ recs, (try_parse fallback r.date).isSome = true ∧ r.category = c := by
      rw [List.mem_dedup, List.mem_map]
      constructor
      · rintro ⟨r, hr, rfl⟩
        obtain ⟨hrl, hrp⟩ := List.mem_filter.mp hr
        exact ⟨r, hrl, hrp, rfl⟩
      · rintro ⟨r, hr, hp, rfl⟩
        exact ⟨r, List.mem_filter.mpr ⟨hr, hp⟩, rfl⟩
    unfold personalized_budget_recommendation
    rw [if_neg hrecs, lookup_map_self]
    constructor
    · intro hex
      rw [if_pos (hmem.mpr hex)]
    · intro hex
      rw [if_neg (fun hc => hex (hmem.mp hc))]

unseal Rat.add Rat.mul Rat.sub Rat.inv in
/-- Witness for C8: a category with monthly totals `[100, 200]` is recommended
`0.9 · 150 = 135`. -/
theorem budget_recommendation_witness :
    (∃ r ∈ ([⟨"15-01-2021", 100, "Food", ""⟩, ⟨"15-02-2021", 200, "Food", ""⟩] : List Record),
        (try_parse (fun _ => none) r.date).isSome = true ∧ r.category = "Food")
    ∧ (personalized_budget_recommendation (fun _ => none)
        [⟨"15-01-2021", 100, "Food", ""⟩, ⟨"15-02-2021", 200, "Food", ""⟩]).lookup "Food"
      = some 135 := by
  refine ⟨⟨⟨"15-01-2021", 100, "Food", ""⟩, by decide, by decide, rfl⟩, ?_⟩
  have h := (budget_recommendation_mean (fun _ => none)
    [⟨"15-01-2021", 100, "Food", ""⟩, ⟨"15-02-2021", 200, "Food", ""⟩] "Food").1
    ⟨⟨"15-01-2021", 100, "Food", ""⟩, by decide, by decide, rfl⟩
  rw [h]
  decide

/-! ## C9: the date-disambiguation rule -/

/-- A character of the head segment of `splitOnDash l` is a character of `l`. -/
theorem mem_of_mem_headD_splitOnDash (l : List Char) (c : Char)
    (hc : c ∈ (splitOnDash l).headD []) : c ∈ l := by
  induction l with
  | nil => simp [splitOnDash] at hc
  | cons a t ih =>
    simp only [splitOnDash] at hc
    by_cases ha : a = '-'
    · rw [if_pos ha] at hc
      simp at hc
    · rw [if_neg ha] at hc
      cases hr : splitOnDash t with
      | nil =>
        rw [hr] at hc
        simp at hc
        simp [hc]
      | cons h t2 =>
        rw [hr] at hc
        simp only [List.headD_cons] at hc
        cases List.mem_cons.mp hc with
        | inl he => simp [he]
        | inr hm =>
          have : c ∈ (splitOnDash t).headD [] := by rw [hr]; exact hm
          exact List.mem_cons_of_mem a (ih this)

/-- `pyStrip` keeps only characters of its input. -/
theorem pyStrip_subset (l : List Char) (c : Char) (hc : c ∈ pyStrip l) : c ∈ l := by
  unfold pyStrip at hc
  rw [List.mem_reverse] at hc
  have h1 : c ∈ (l.dropWhile isPySpace).reverse := (List.dropWhile_sublist _).subset hc
  rw [List.mem_reverse] at h1
  exact (List.dropWhile_sublist _).subset h1

/-- A digit is not stripped whitespace. -/
theorem digit_not_pyspace (c : Char) (h : c.isDigit = true) : isPySpace c = false := by
  by_contra hne
  have hsp : isPySpace c = true := by
    revert hne
    cases isPySpace c <;> simp
  unfold isPySpace at hsp
  simp only [Bool.or_eq_true, decide_eq_true_eq] at hsp
  rcases hsp with ((((h1 | h2) | h3) | h4) | h5) | h6 <;> subst_vars <;> exact absurd h (by decide)

/-- A successfully `int()`-parsed segment contains a non-whitespace character. -/
theorem pyInt_has_nonspace (l : List Char) (n : Int) (h : pyInt l = some n) :
    ∃ c ∈ l, isPySpace c = false := by
  unfold pyInt pyIntCore at h
  cases hs : pyStrip l with
  | nil => rw [hs] at h; simp at h
  | cons c rest =>
    rw [hs] at h
    have hcl : c ∈ l := pyStrip_subset l c (hs ▸ List.mem_cons_self c rest)
    refine ⟨c, hcl, ?_⟩
    by_cases h1 : c = '+'
    · subst h1; decide
    · by_cases h2 : c = '-'
      · subst h2; decide
      · have hd : (c :: rest).all Char.isDigit = true := by
          revert h
          split
          · rename_i heq
            intro h
            exact absurd heq.symm (by intro hcon; cases hcon; exact h1 rfl)
          · rename_i heq
            intro h
            exact absurd heq.symm (by intro hcon; cases hcon; exact h2 rfl)
          · intro h
            by_cases hall : (c :: rest).all Char.isDigit = true
            · exact hall
            · rw [show ((c :: rest).all Char.isDigit) = false from by
                revert hall; cases (c :: rest).all Char.isDigit <;> simp] at h
              simp at h
        exact digit_not_pyspace c (by simpa using (List.all_eq_true.mp hd c (List.mem_cons_self c rest)))

/-- Unparseable-date records never contribute to aggregation. -/
theorem aggregate_ignores_unparseable (fallback : String → Option Date) (recs : List Record)
    (g : Granularity) :
    aggregate fallback (recs.filter (fun r => (try_parse fallback r.date).isSome)) g
      = aggregate fallback recs g := by
  have hpk : parsedKeyed fallback (recs.filter (fun r => (try_parse fallback r.date).isSome)) g
      = parsedKeyed fallback recs g := by
    unfold parsedKeyed
    induction recs with
    | nil => rfl
    | cons r t ih =>
      cases hd : try_parse fallback r.date with
      | none => simp [List.filter_cons, List.filterMap_cons, hd, ih]
      | some d => simp [List.filter_cons, List.filterMap_cons, hd, ih]
  unfold aggregate
  rw [hpk]

/-- C9 (amended): a 10-character string whose first dash-separated segment
`int()`-parses to `n` is parsed strictly as `%Y-%m-%d` when `n > 31` and as
`%d-%m-%Y` when `n ≤ 31`; a non-blank string of any other length — and a
10-character string whose first segment is not an integer — goes to the
general fallback parser; a blank string parses to null; and records whose date
parses to null are excluded from (never contribute to) aggregation. -/
theorem date_disambiguation_rule (fallback : String → Option Date) (s : String)
    (recs : List Record) (g : Granularity) :
    (∀ n : Int, s.data.length = 10 →
        pyInt ((splitOnDash s.data).headD []) = some n →
        try_parse fallback s = if 31 < n then parseYMD s.data else parseDMY s.data)
    ∧ (s.data.all isPySpace = false → s.data.length ≠ 10 → try_parse fallback s = fallback s)
    ∧ (s.data.all isPySpace = false → s.data.length = 10 →
        pyInt ((splitOnDash s.data).headD []) = none → try_parse fallback s = fallback s)
    ∧ (s.data.all isPySpace = true → try_parse fallback s = none)
    ∧ (aggregate fallback (recs.filter (fun r => (try_parse fallback r.date).isSome)) g
        = aggregate fallback recs g) := by
  refine ⟨?_, ?_, ?_, ?_, aggregate_ignores_unparseable fallback recs g⟩
  · intro n h10 hseg
    obtain ⟨c, hc, hcf⟩ := pyInt_has_nonspace _ n hseg
    have hnb : s.data.all isPySpace = false := by
      rw [List.all_eq_false]
      exact ⟨c, mem_of_mem_headD_splitOnDash s.data c hc, by simp [hcf]⟩
    unfold try_parse
    rw [if_neg (by simp [hnb]), if_pos h10, hseg]
  · intro hnb h10
    unfold try_parse
    rw [if_neg (by simp [hnb]), if_neg h10]
  · intro hnb h10 hseg
    unfold try_parse
    rw [if_neg (by simp [hnb]), if_pos h10, hseg]
  · intro hb
    unfold try_parse
    rw [if_pos hb]

/-- Witness for C9 (amended): `"2021-05-06"` (first segment 2021 > 31) parses
strictly as `%Y-%m-%d` and `"06-05-2021"` (first segment 6 ≤ 31) strictly as
`%d-%m-%Y`. -/
theorem date_disambiguation_rule_witness :
    try_parse (fun _ => none) "2021-05-06" = parseYMD "2021-05-06".data
    ∧ try_parse (fun _ => none) "06-05-2021" = parseDMY "06-05-2021".data := by
  constructor
  · have h := (date_disambiguation_rule (fun _ => none) "2021-05-06" [] Granularity.month).1
      2021 (by decide) (by decide)
    rw [h, if_pos (by decide)]
  · have h := (date_disambiguation_rule (fun _ => none) "06-05-2021" [] Granularity.month).1
      6 (by decide) (by decide)
    rw [h, if_neg (by decide)]

/-- Counterexample to C9 as stated: `"03/04/2021"` is a 10-character string
whose first dash-separated segment (`"03/04/2021"` itself) is not an integer;
the claim's reading sends it to the strict `%d-%m-%Y` parse (which yields
null), but the code hands it to the general fallback parser — which, as
pandas' `pd.to_datetime` does for this input, can parse it (to 2021-03-04).
A blank string likewise parses to null instead of reaching the fallback. -/
theorem date_disambiguation_counterexample :
    try_parse (fun _ => some ⟨2021, 3, 4⟩) "03/04/2021" = some ⟨2021, 3, 4⟩
    ∧ parseDMY "03/04/2021".data = none
    ∧ "03/04/2021".data.length = 10
    ∧ try_parse (fun _ => some ⟨2021, 3, 4⟩) " " = none := by
  refine ⟨by decide, by decide, by decide, by decide⟩

end ExpenseTracker
